import Mathlib

/-!
Verification of the yapyseq sequence-execution engine.

This file gives a shallow embedding, in Lean 4, of the parts of the
yapyseq code base (nodes.py, sequencerunner.py, sequenceanalyzer.py,
common.py, functiongrabber.py) that the checked claims are about, and
proves or refutes each claim against that embedding.

Conventions of the embedding:
* Python dictionaries are association lists kept in insertion order.
* Python `set` values of node ids are `Finset Int`.
* A Python function that can raise returns `Except PyExc _`; the
  constructors of `PyExc` mirror the exception classes of the code.
* The dynamic evaluation of Python expression strings (the builtin
  `eval`) is abstracted by evaluator parameters; `miniEval` below is a
  concrete model of `eval` restricted to bare-variable-name lookup,
  used for concrete counterexamples.
-/

namespace Yapyseq

/-- View of an `Except` as a sum, to derive decidable equality. -/
def exceptToSum {ε α : Type} : Except ε α → Sum ε α
  | .error e => Sum.inl e
  | .ok a => Sum.inr a

instance {ε α : Type} [DecidableEq ε] [DecidableEq α] :
    DecidableEq (Except ε α) := fun a b =>
  decidable_of_iff (exceptToSum a = exceptToSum b)
    (by cases a <;> cases b <;> simp [exceptToSum])

/-- A Python runtime value, restricted to the value shapes that occur in
sequence files and variables (None, bool, int, str). -/
inductive PyVal : Type
  | none : PyVal
  | bool (b : Bool) : PyVal
  | int (n : Int) : PyVal
  | str (s : String) : PyVal
  deriving DecidableEq, Repr

/-- The exceptions raised by the embedded code, mirroring the exception
classes of nodes.py, sequencerunner.py, sequenceanalyzer.py and
functiongrabber.py, plus Python's NameError for failed `eval` lookups. -/
inductive PyExc : Type
  | conditionError : PyExc
  | noTransitionError : PyExc
  | multipleTransitionError : PyExc
  | readOnlyError : PyExc
  | unknownNodeTypeError : PyExc
  | parallelSyncFailure : PyExc
  | previousNodeUndefined : PyExc
  | nameError (n : String) : PyExc
  | wrapperInitError (w : String) : PyExc
  | wrapperPreError (w : String) : PyExc
  | wrapperPostError (w : String) : PyExc
  | itemUniquenessError : PyExc
  | itemExistenceError : PyExc
  | incompatibleNodeType : PyExc
  deriving DecidableEq, Repr

/-- A variables dictionary: association list in insertion order, as a
Python dict. -/
abbrev Vars := List (String × PyVal)

/-- Dictionary lookup (`variables[k]` on the reading side). -/
def lookupVar : Vars → String → Option PyVal
  | [], _ => Option.none
  | (k', v) :: rest, k => if k' = k then some v else lookupVar rest k

/-- Dictionary update `variables[k] = v`: replace in place if the key
exists, else append (Python dict insertion-order semantics). -/
def setVar : Vars → String → PyVal → Vars
  | [], k, v => [(k, v)]
  | (k', v') :: rest, k, v =>
      if k' = k then (k, v) :: rest else (k', v') :: setVar rest k v

/-- A concrete model of Python's `eval` restricted to expressions that
are a bare variable name: look the name up in the evaluation
environment, raising NameError when absent.  Used to instantiate the
abstract evaluator parameters on concrete inputs. -/
def miniEval (s : String) (env : Vars) : Except PyExc PyVal :=
  match lookupVar env s with
  | some v => .ok v
  | Option.none => .error (.nameError s)

-- ---------------------------------------------------------------------------
-- nodes.py: Transition and transition resolution
-- ---------------------------------------------------------------------------

/-- nodes.py `Transition`: a target node id and an optional condition.
The condition is embedded as the function taking the variables to the
outcome of `eval(self._condition, None, variables)`. -/
structure Transition : Type where
  target : Int
  condition : Option (Vars → Except PyExc PyVal)

/-- nodes.py `Transition.is_condition_fulfilled`: an absent condition is
fulfilled; otherwise the condition is evaluated, a non-bool result
raises ConditionError, and an exception from `eval` propagates. -/
def isConditionFulfilled (t : Transition) (vars : Vars) : Except PyExc Bool :=
  match t.condition with
  | Option.none => .ok true
  | some c =>
      match c vars with
      | .error e => .error e
      | .ok (.bool b) => .ok b
      | .ok _ => .error .conditionError

/-- The loop of nodes.py `TransitionalNode.get_next_node_id` that builds
`target_nodes`: the set of targets of the transitions whose condition is
fulfilled.  An exception while checking a condition propagates. -/
def winningTargets (ts : List Transition) (vars : Vars) :
    Except PyExc (Finset Int) :=
  match ts with
  | [] => .ok ∅
  | t :: rest =>
      match isConditionFulfilled t vars with
      | .error e => .error e
      | .ok b =>
          match winningTargets rest vars with
          | .error e => .error e
          | .ok s => .ok (if b then insert t.target s else s)

/-- nodes.py `TransitionalNode.get_next_node_id`: the winning target
set, with NoTransitionError when it is empty. -/
def getNextNodeId (ts : List Transition) (vars : Vars) :
    Except PyExc (Finset Int) :=
  match winningTargets ts vars with
  | .error e => .error e
  | .ok targets =>
      if targets = ∅ then .error .noTransitionError else .ok targets

/-- nodes.py `SimpleTransitionalNode.get_next_node_id`: the base
resolution, plus MultipleTransitionError when more than one target
wins. -/
def simpleGetNextNodeId (ts : List Transition) (vars : Vars) :
    Except PyExc (Finset Int) :=
  match getNextNodeId ts vars with
  | .error e => .error e
  | .ok next => if 1 < next.card then .error .multipleTransitionError else .ok next

/-- The node types of the sequence model (nodes.py class hierarchy /
the `type` field of sequence files). -/
inductive NodeKind : Type
  | start : NodeKind
  | stop : NodeKind
  | parallelSplit : NodeKind
  | parallelSync : NodeKind
  | function : NodeKind
  | seqVariable : NodeKind
  deriving DecidableEq, Repr

/-- Which node classes inherit `SimpleTransitionalNode` in nodes.py:
StartNode, ParallelSyncNode, FunctionNode and VariableNode do;
ParallelSplitNode inherits plain `TransitionalNode` and StopNode has no
transitions at all. -/
def isSimpleTransitional : NodeKind → Bool
  | .start => true
  | .parallelSync => true
  | .function => true
  | .seqVariable => true
  | .parallelSplit => false
  | .stop => false

/-- Dispatch of `get_next_node_id` by node class, following the nodes.py
class hierarchy.  StopNode has no such method (`Option.none`). -/
def nodeGetNextNodeId (k : NodeKind) (ts : List Transition) (vars : Vars) :
    Option (Except PyExc (Finset Int)) :=
  match k with
  | .stop => Option.none
  | .parallelSplit => some (getNextNodeId ts vars)
  | _ => some (simpleGetNextNodeId ts vars)

/-- Boolean form of "this transition's condition is fulfilled without
an exception". -/
def fulfilledB (t : Transition) (vars : Vars) : Bool :=
  match isConditionFulfilled t vars with
  | .ok true => true
  | _ => false

/-- The winning target set as the specification writes it:
`{t.target | t.condition is absent or evaluates to true}`. -/
def specWinning (ts : List Transition) (vars : Vars) : Finset Int :=
  ((ts.filter (fun t => fulfilledB t vars)).map (fun t => t.target)).toFinset

-- ---------------------------------------------------------------------------
-- sequencerunner.py: the variable-node branch of _manage_special_node
-- ---------------------------------------------------------------------------

/-- common.py `evaluate_expr`: a string is evaluated as a Python
expression with the given variables as locals, any other value is
returned unchanged.  `pyEval` abstracts `eval(expr, None, variables)`. -/
def evaluateExpr (pyEval : String → Vars → Except PyExc PyVal)
    (expr : PyVal) (vars : Vars) : Except PyExc PyVal :=
  match expr with
  | .str s => pyEval s vars
  | v => .ok v

/-- sequencerunner.py `SequenceRunner.__init__` lines 99-106: the set of
read-only variable names is the built-in name "results" together with
the keys of the user constants. -/
def initReadOnly (constants : Vars) : List String :=
  "results" :: constants.map (fun p => p.1)

/-- The assignment loop of the `seq_var` branch of
`SequenceRunner._manage_special_node` (lines 340-345): for each
`(name, expr)` in order, a string right-hand side is passed to the bare
`eval(expr)` — embedded as `evalStr`, an evaluator that is NOT given the
sequence variables — and any other right-hand side is used unchanged;
the value is assigned into the variables. -/
def assignLoop (evalStr : String → Except PyExc PyVal) :
    List (String × PyVal) → Vars → Except PyExc Vars
  | [], vars => .ok vars
  | (name, expr) :: rest, vars =>
      match expr with
      | .str s =>
          match evalStr s with
          | .error e => .error e
          | .ok v => assignLoop evalStr rest (setVar vars name v)
      | v => assignLoop evalStr rest (setVar vars name v)

/-- The `seq_var` branch of `SequenceRunner._manage_special_node`
(lines 330-345): raise ReadOnlyError if any assigned name is read-only,
otherwise run the assignment loop.  `evalStr` is the evaluation
performed by the bare `eval(expr)` at line 342, which evaluates in the
runner's own frame and therefore has no access to the sequence
variables. -/
def manageSeqVar (evalStr : String → Except PyExc PyVal)
    (readOnly : List String) (ass : List (String × PyVal)) (vars : Vars) :
    Except PyExc Vars :=
  if ass.any (fun p => readOnly.contains p.1) then .error .readOnlyError
  else assignLoop evalStr ass vars

/-- Modelled from the spec (§4.6, *Variable* dispatch): the missing
current SequenceRunner evaluates each right-hand side with
`evaluate(expr, variables)` against the current variables; this
definition follows those words, using common.py `evaluate_expr`, for
comparison with `manageSeqVar` above. -/
def specAssignLoop (pyEval : String → Vars → Except PyExc PyVal) :
    List (String × PyVal) → Vars → Except PyExc Vars
  | [], vars => .ok vars
  | (name, expr) :: rest, vars =>
      match evaluateExpr pyEval expr vars with
      | .error e => .error e
      | .ok v => specAssignLoop pyEval rest (setVar vars name v)

/-- Modelled from the spec (§4.6): the variable-node dispatch with the
read-only check, evaluating right-hand sides against the current
variables. -/
def specManageSeqVar (pyEval : String → Vars → Except PyExc PyVal)
    (readOnly : List String) (ass : List (String × PyVal)) (vars : Vars) :
    Except PyExc Vars :=
  if ass.any (fun p => readOnly.contains p.1) then .error .readOnlyError
  else specAssignLoop pyEval ass vars

-- ---------------------------------------------------------------------------
-- sequencerunner.py: the parallel_sync branch of _manage_special_node
-- ---------------------------------------------------------------------------

/-- sequencerunner.py `NewNode`: a node id together with the id of the
previous node that activated it (None for start nodes). -/
structure NewNode : Type where
  node_id : Int
  previous_node_id : Option Int
  deriving DecidableEq, Repr

/-- The `parallel_sync` branch of `SequenceRunner._manage_special_node`
(lines 307-328).  `prevIds` is `get_all_prev_node_ids(nnid)` (the
graph-level inbound set), `computeNext` the outcome of
`get_next_node_id(nnid, variables)`, `history` the entry of
`_parallel_sync_history` for this node (`Option.none` when the key is
absent), and `arrival` the `previous_node_id` of the activating NewNode.
Returns the new history together with the NewNode added, if any. -/
def manageParallelSync (prevIds : Finset Int) (computeNext : Except PyExc Int)
    (nid : Int) (history : Option (Finset Int)) (arrival : Int) :
    Except PyExc (Finset Int × Option NewNode) :=
  let h0 := history.getD ∅
  let h1 := insert arrival h0
  if prevIds = h1 then
    match computeNext with
    | .error e => .error e
    | .ok nxt => .ok (∅, some ⟨nxt, some nid⟩)
  else .ok (h1, Option.none)

/-- Whether the parallel-sync step fired its outgoing transition, i.e.
added a NewNode. -/
def syncFires (r : Except PyExc (Finset Int × Option NewNode)) : Bool :=
  match r with
  | .ok (_, some _) => true
  | _ => false

-- ---------------------------------------------------------------------------
-- sequencerunner.py: result handling in SequenceRunner.run (lines 411-432)
-- ---------------------------------------------------------------------------

/-- sequencerunner.py `ExceptInfo` for node results:
`(is_raised, name, args)`; args are kept as a list of strings. -/
structure RunExceptInfo : Type where
  is_raised : Bool
  name : Option String
  args : List String
  deriving DecidableEq, Repr

/-- sequencerunner.py `NodeResult`: `(node_id, exception, returned)`. -/
structure NodeResult : Type where
  node_id : Int
  exception : RunExceptInfo
  returned : Option PyVal
  deriving DecidableEq, Repr

/-- A runner variable value: either an ordinary Python value or the
`results` dictionary mapping node ids to NodeResult records. -/
inductive RVal : Type
  | py (v : PyVal) : RVal
  | results (d : List (Int × NodeResult)) : RVal
  deriving DecidableEq, Repr

/-- The runner's variables dictionary. -/
abbrev RVars := List (String × RVal)

/-- Lookup in the runner's variables dictionary. -/
def lookupRVar : RVars → String → Option RVal
  | [], _ => Option.none
  | (k', v) :: rest, k => if k' = k then some v else lookupRVar rest k

/-- Update of an integer-keyed dictionary
(`results[new_result.node_id] = new_result`). -/
def setResultEntry : List (Int × NodeResult) → Int → NodeResult →
    List (Int × NodeResult)
  | [], k, v => [(k, v)]
  | (k', v') :: rest, k, v =>
      if k' = k then (k, v) :: rest else (k', v') :: setResultEntry rest k v

/-- The statement `self._variables['results'][new_result.node_id] =
new_result` (sequencerunner.py line 421): update the results dictionary
stored under the key "results", leaving every other entry unchanged. -/
def storeResult : RVars → NodeResult → RVars
  | [], _ => []
  | (k, v) :: rest, res =>
      if k = "results" then
        (k, match v with
            | .results d => RVal.results (setResultEntry d res.node_id res)
            | w => w) :: rest
      else (k, v) :: storeResult rest res

/-- The scheduler state touched by result handling (`varsDict` embeds
`self._variables`). -/
structure RunnerState : Type where
  varsDict : RVars
  runningNodes : List Int
  newNodes : List NewNode
  deriving DecidableEq, Repr

/-- The result-handling block of `SequenceRunner.run`
(sequencerunner.py lines 418-432): store the result under
`variables['results']`, pop the node from the running nodes, and add
the next node (already computed by `get_next_node_id`, passed here as
`nextId`) to the new nodes with the finished node as previous. -/
def handleResult (st : RunnerState) (res : NodeResult) (nextId : Int) :
    RunnerState :=
  { varsDict := storeResult st.varsDict res
    runningNodes := st.runningNodes.erase res.node_id
    newNodes := ⟨nextId, some res.node_id⟩ :: st.newNodes }

-- ---------------------------------------------------------------------------
-- nodes.py: WrappedNode wrapper protocol and FunctionNode.run
-- ---------------------------------------------------------------------------

/-- The behaviour, at one invocation, of one wrapper entry: the outcome
of evaluating its kwargs and constructing it (`initRes`), of its
`pre()` call (`preRes`, returning the value stored under
`variables['wrappers'][name]`), and of its `post()` call (`postRes`).
Error payloads are the message of the raised cause. -/
structure WrapperBehavior : Type where
  initRes : Except String Unit
  preRes : Except String PyVal
  postRes : Except String Unit
  deriving DecidableEq, Repr

/-- An observable call event of the wrapper machinery. -/
inductive WEvent : Type
  | initCall (w : String) : WEvent
  | preCall (w : String) : WEvent
  | postCall (w : String) : WEvent
  deriving DecidableEq, Repr

/-- The state produced by `WrappedNode._run_wrappers_pre`: the
`_wrapper_objects` dictionary (successfully constructed wrappers, in
order), the `_wrappers_pre_success` list, the `variables['wrappers']`
sub-dictionary of pre results, the call trace, and the raised
NodeWrapperInitError / NodeWrapperPreError if any. -/
structure PreState : Type where
  objects : List (String × WrapperBehavior)
  preSuccess : List String
  wrapperRets : List (String × PyVal)
  trace : List WEvent
  error : Option PyExc
  deriving DecidableEq, Repr

/-- nodes.py `WrappedNode._run_wrappers_pre` (lines 264-298): iterate
the declared wrappers in order; construct each (failure: raise
NodeWrapperInitError and stop), run its `pre` (failure: raise
NodeWrapperPreError and stop, the object being already stored), store
the pre result and append the name to `_wrappers_pre_success`.
`initialSuccess` is the `_wrappers_pre_success` list on entry: the
method resets `_wrapper_objects` and `variables['wrappers']` but never
clears `_wrappers_pre_success`. -/
def runWrappersPre (initialSuccess : List String) :
    List (String × WrapperBehavior) → PreState
  | [] => ⟨[], initialSuccess, [], [], Option.none⟩
  | (w, b) :: rest =>
      match b.initRes with
      | .error _ =>
          ⟨[], initialSuccess, [], [.initCall w], some (.wrapperInitError w)⟩
      | .ok _ =>
          match b.preRes with
          | .error _ =>
              ⟨[(w, b)], initialSuccess, [], [.initCall w, .preCall w],
               some (.wrapperPreError w)⟩
          | .ok v =>
              let st := runWrappersPre (initialSuccess ++ [w]) rest
              ⟨(w, b) :: st.objects, st.preSuccess, (w, v) :: st.wrapperRets,
               .initCall w :: .preCall w :: st.trace, st.error⟩

/-- nodes.py `WrappedNode._run_wrappers_post` (lines 300-314): iterate
`_wrapper_objects` in order, skip wrappers not in
`_wrappers_pre_success`, call `post()` on the others; the first failure
raises NodeWrapperPostError, which leaves the loop. -/
def runWrappersPost (preSuccess : List String) :
    List (String × WrapperBehavior) → Option PyExc × List WEvent
  | [] => (Option.none, [])
  | (w, b) :: rest =>
      if w ∈ preSuccess then
        match b.postRes with
        | .error _ => (some (.wrapperPostError w), [.postCall w])
        | .ok _ =>
            let r := runWrappersPost preSuccess rest
            (r.1, .postCall w :: r.2)
      else runWrappersPost preSuccess rest

/-- nodes.py `ExceptInfo`: `(function, wrappers)` exception slots. -/
structure NodeExceptInfo : Type where
  function : Option PyExc
  wrappers : Option PyExc
  deriving DecidableEq, Repr

/-- nodes.py `FunctionNodeResult`: `(nid, exception, returned)`. -/
structure FunctionNodeResult : Type where
  nid : Int
  exception : Option NodeExceptInfo
  returned : Option PyVal
  deriving DecidableEq, Repr

/-- nodes.py `FunctionNode._create_node_result` (lines 551-575): the
exception field is an ExceptInfo pair when a function exception or a
wrappers exception is present (exception objects are always truthy),
and None when both are absent. -/
def createNodeResult (nid : Int) (functionException wrappersException : Option PyExc)
    (returnedObj : Option PyVal) : FunctionNodeResult :=
  if functionException.isSome || wrappersException.isSome then
    ⟨nid, some ⟨functionException, wrappersException⟩, returnedObj⟩
  else
    ⟨nid, Option.none, returnedObj⟩

/-- nodes.py `FunctionNode.run` (lines 637-704): run the wrappers' pre
phase; only if it succeeded, evaluate the kwargs and run the function
(`funcOutcome` abstracts the pair `func_ret, func_exc` of that stage);
run the wrappers' post phase; compose the result with the pre error
taking precedence over the post error.  Returns the result and the
full call trace. -/
def nodeRun (nid : Int) (desc : List (String × WrapperBehavior))
    (initialSuccess : List String)
    (funcOutcome : Option PyVal × Option PyExc) :
    FunctionNodeResult × List WEvent :=
  let pre := runWrappersPre initialSuccess desc
  let fr := if pre.error.isSome then (Option.none, Option.none) else funcOutcome
  let post := runWrappersPost pre.preSuccess pre.objects
  (createNodeResult nid fr.2 (pre.error.orElse (fun _ => post.1)) fr.1,
   pre.trace ++ post.2)

/-- The pre-call events of a trace, in order. -/
def preCalls (tr : List WEvent) : List String :=
  tr.filterMap (fun e => match e with | .preCall w => some w | _ => Option.none)

/-- The post-call events of a trace, in order. -/
def postCalls (tr : List WEvent) : List String :=
  tr.filterMap (fun e => match e with | .postCall w => some w | _ => Option.none)

-- ---------------------------------------------------------------------------
-- nodes.py: Node.previous_node_id property
-- ---------------------------------------------------------------------------

/-- Python truthiness of the stored `_previous_node_id` (None at
construction, or an int set through the setter): None and 0 are falsy. -/
def pyTruthyId : Option Int → Bool
  | Option.none => false
  | some n => n != 0

/-- nodes.py `Node.previous_node_id` getter (lines 198-209): return the
stored value if it is truthy (`if self._previous_node_id:`), else raise
PreviousNodeUndefined. -/
def previousNodeIdGet (stored : Option Int) : Except PyExc Int :=
  if pyTruthyId stored then
    match stored with
    | some n => .ok n
    | Option.none => .error .previousNodeUndefined
  else .error .previousNodeUndefined

/-- nodes.py `Node.previous_node_id` setter (lines 211-213): store the
given value unconditionally. -/
def previousNodeIdSet (_stored : Option Int) (value : Int) : Option Int :=
  some value

-- ---------------------------------------------------------------------------
-- functiongrabber.py: FunctionGrabber._import_items / import_wrappers
-- ---------------------------------------------------------------------------

/-- A top-level Python class found in the function directory, with the
one property the wrapper claims need: whether it derives from
common.py `NodeWrapper`. -/
structure PyClass : Type where
  name : String
  isNodeWrapperSubclass : Bool
  deriving DecidableEq, Repr

/-- How many files of the directory define an item with this name
(the per-item counter of `_import_items`); `found` lists one entry per
found class occurrence. -/
def countFound (found : List PyClass) (n : String) : Nat :=
  (found.filter (fun c => c.name == n)).length

/-- functiongrabber.py `FunctionGrabber._import_items` (lines 123-212),
with the file walking abstracted into the list of found classes:
ItemUniquenessError if some wanted name is found more than once,
ItemExistenceError if some wanted name is not found, and otherwise the
imported mapping from names to classes. -/
def importItems (found : List PyClass) (wanted : List String) :
    Except PyExc (List (String × PyClass)) :=
  if wanted.any (fun n => 1 < countFound found n) then .error .itemUniquenessError
  else if wanted.any (fun n => countFound found n = 0) then .error .itemExistenceError
  else .ok (wanted.filterMap (fun n =>
    (found.find? (fun c => c.name == n)).map (fun c => (n, c))))

/-- functiongrabber.py `FunctionGrabber.import_wrappers` (lines
238-262): delegates to `_import_items` for classes.  The check that
each class is a subclass of NodeWrapper is only a TODO comment in the
source (lines 255-259) and is not performed. -/
def importWrappers (found : List PyClass) (wanted : List String) :
    Except PyExc (List (String × PyClass)) :=
  importItems found wanted

/-- Lookup in an integer-keyed results dictionary. -/
def lookupResultEntry : List (Int × NodeResult) → Int → Option NodeResult
  | [], _ => Option.none
  | (k', v) :: rest, k => if k' = k then some v else lookupResultEntry rest k

-- ---------------------------------------------------------------------------
-- Helper lemmas
-- ---------------------------------------------------------------------------

lemma lookupVar_setVar_ne (vars : Vars) (k : String) (v : PyVal) (name : String)
    (h : k ≠ name) : lookupVar (setVar vars k v) name = lookupVar vars name := by
  induction vars with
  | nil => simp [setVar, lookupVar, h]
  | cons p rest ih =>
      by_cases hk : p.1 = k
      · simp only [setVar, hk, if_pos rfl, lookupVar, h]
        simp [← hk]
      · simp only [setVar, if_neg hk, lookupVar]
        by_cases hn : p.1 = name
        · simp [hn]
        · simp [hn, ih]

lemma assignLoop_lookup_not_assigned (evalStr : String → Except PyExc PyVal)
    (ass : List (String × PyVal)) (vars vars2 : Vars) (name : String)
    (hok : assignLoop evalStr ass vars = .ok vars2)
    (hmem : ∀ p ∈ ass, p.1 ≠ name) :
    lookupVar vars2 name = lookupVar vars name := by
  induction ass generalizing vars with
  | nil =>
      simp only [assignLoop, Except.ok.injEq] at hok
      rw [hok]
  | cons p rest ih =>
      obtain ⟨pn, pe⟩ := p
      have hne : pn ≠ name := hmem (pn, pe) (List.mem_cons_self _ _)
      have hrest : ∀ q ∈ rest, q.1 ≠ name := fun q hq =>
        hmem q (List.mem_cons_of_mem _ hq)
      cases pe with
      | str s =>
          simp only [assignLoop] at hok
          cases hes : evalStr s with
          | error e => rw [hes] at hok; cases hok
          | ok v =>
              rw [hes] at hok
              rw [ih _ hok hrest, lookupVar_setVar_ne _ _ _ _ hne]
      | none =>
          simp only [assignLoop] at hok
          rw [ih _ hok hrest, lookupVar_setVar_ne _ _ _ _ hne]
      | bool b =>
          simp only [assignLoop] at hok
          rw [ih _ hok hrest, lookupVar_setVar_ne _ _ _ _ hne]
      | int n =>
          simp only [assignLoop] at hok
          rw [ih _ hok hrest, lookupVar_setVar_ne _ _ _ _ hne]

lemma storeResult_lookup_ne (vars : RVars) (res : NodeResult) (name : String)
    (h : name ≠ "results") :
    lookupRVar (storeResult vars res) name = lookupRVar vars name := by
  induction vars with
  | nil => rfl
  | cons p rest ih =>
      obtain ⟨k, v⟩ := p
      by_cases hk : k = "results"
      · subst hk
        have hns : ¬ ("results" = name) := fun hh => h hh.symm
        simp [storeResult, lookupRVar, hns]
      · simp only [storeResult, if_neg hk, lookupRVar]
        by_cases hn : k = name
        · simp [hn]
        · simp [hn, ih]

lemma lookupResultEntry_setResultEntry (d : List (Int × NodeResult))
    (k : Int) (v : NodeResult) :
    lookupResultEntry (setResultEntry d k v) k = some v := by
  induction d with
  | nil => simp [setResultEntry, lookupResultEntry]
  | cons p rest ih =>
      by_cases hk : p.1 = k
      · simp [setResultEntry, hk, lookupResultEntry]
      · simp [setResultEntry, hk, lookupResultEntry, ih]

lemma setResultEntry_keys (d : List (Int × NodeResult)) (k : Int) (v : NodeResult) :
    (setResultEntry d k v).map Prod.fst =
      if k ∈ d.map Prod.fst then d.map Prod.fst else d.map Prod.fst ++ [k] := by
  induction d with
  | nil => simp [setResultEntry]
  | cons p rest ih =>
      by_cases hk : p.1 = k
      · simp [setResultEntry, hk]
      · have : ¬ k = p.1 := fun hh => hk hh.symm
        simp only [setResultEntry, if_neg hk, List.map_cons, List.mem_cons, this,
          false_or, ih]
        by_cases hm : k ∈ rest.map Prod.fst <;> simp [hm]

lemma runWrappersPre_preCalls (init : List String)
    (desc : List (String × WrapperBehavior)) :
    preCalls (runWrappersPre init desc).trace
      = (desc.map Prod.fst).take (preCalls (runWrappersPre init desc).trace).length := by
  induction desc generalizing init with
  | nil => rfl
  | cons p rest ih =>
      obtain ⟨w, b⟩ := p
      cases hinit : b.initRes with
      | error e => simp [runWrappersPre, hinit, preCalls]
      | ok u =>
          cases hpre : b.preRes with
          | error e => simp [runWrappersPre, hinit, hpre, preCalls]
          | ok v =>
              have hih := ih (init ++ [w])
              simp only [runWrappersPre, hinit, hpre, preCalls,
                List.filterMap_cons, List.map_cons] at hih ⊢
              rw [List.length_cons, List.take_succ_cons]
              exact congrArg (List.cons w) hih

lemma runWrappersPost_subset (ps : List String)
    (objs : List (String × WrapperBehavior)) :
    ∀ w ∈ postCalls (runWrappersPost ps objs).2, w ∈ ps := by
  induction objs with
  | nil =>
      intro w hw
      simp [runWrappersPost, postCalls] at hw
  | cons p rest ih =>
      obtain ⟨w', b⟩ := p
      intro w hw
      by_cases hmem : w' ∈ ps
      · simp only [runWrappersPost, if_pos hmem] at hw
        cases hpost : b.postRes with
        | error e =>
            simp only [hpost, postCalls, List.filterMap_cons] at hw
            simp at hw
            rw [hw]
            exact hmem
        | ok u =>
            simp only [hpost, postCalls, List.filterMap_cons] at hw
            rcases List.mem_cons.1 hw with rfl | hw2
            · exact hmem
            · exact ih w hw2
      · simp only [runWrappersPost, if_neg hmem] at hw
        exact ih w hw

lemma runWrappersPre_preSuccess_mem (init : List String)
    (desc : List (String × WrapperBehavior)) :
    ∀ w ∈ (runWrappersPre init desc).preSuccess,
      w ∈ init ∨ ∃ b, (w, b) ∈ desc ∧ (∃ u, b.initRes = .ok u)
        ∧ ∃ v, b.preRes = .ok v := by
  induction desc generalizing init with
  | nil => exact fun w hw => Or.inl hw
  | cons p rest ih =>
      obtain ⟨w', b⟩ := p
      intro w hw
      cases hinit : b.initRes with
      | error e =>
          simp only [runWrappersPre, hinit] at hw
          exact Or.inl hw
      | ok u =>
          cases hpre : b.preRes with
          | error e =>
              simp only [runWrappersPre, hinit, hpre] at hw
              exact Or.inl hw
          | ok v =>
              simp only [runWrappersPre, hinit, hpre] at hw
              rcases ih (init ++ [w']) w hw with hin | ⟨b2, hb2, h1, h2⟩
              · rcases List.mem_append.1 hin with h | h
                · exact Or.inl h
                · have : w = w' := by simpa using h
                  subst this
                  exact Or.inr ⟨b, List.mem_cons_self _ _, ⟨u, hinit⟩, ⟨v, hpre⟩⟩
              · exact Or.inr ⟨b2, List.mem_cons_of_mem _ hb2, h1, h2⟩

lemma postCalls_cons (w : String) (tr : List WEvent) :
    postCalls (WEvent.postCall w :: tr) = w :: postCalls tr := rfl

lemma winningTargets_ok (ts : List Transition) (vars : Vars)
    (hok : ∀ t ∈ ts, ∃ b, isConditionFulfilled t vars = .ok b) :
    winningTargets ts vars = .ok (specWinning ts vars) := by
  induction ts with
  | nil => simp [winningTargets, specWinning]
  | cons t rest ih =>
      obtain ⟨b, hb⟩ := hok t (List.mem_cons_self _ _)
      have hrest := ih (fun q hq => hok q (List.mem_cons_of_mem _ hq))
      cases b with
      | true =>
          have hf : fulfilledB t vars = true := by simp [fulfilledB, hb]
          simp [winningTargets, hb, hrest, specWinning, List.filter_cons, hf]
      | false =>
          have hf : fulfilledB t vars = false := by simp [fulfilledB, hb]
          simp [winningTargets, hb, hrest, specWinning, List.filter_cons, hf]

-- ---------------------------------------------------------------------------
-- Claim theorems
-- ---------------------------------------------------------------------------

/-- C1: when every condition of a transitional node evaluates without
an exception, transition resolution computes exactly the winning
target set `{t.target | t.condition absent or evaluating to true}`;
the empty set raises NoTransitionError; the simple-transitional
override (used by the Start, Variable, ParallelSync and Function node
classes) raises MultipleTransitionError for more than one winner and
never returns a set of size greater than one, while the ParallelSplit
class keeps the plain resolution and so may return several targets. -/
theorem C1_transition_resolution (ts : List Transition) (vars : Vars)
    (hok : ∀ t ∈ ts, ∃ b, isConditionFulfilled t vars = .ok b) :
    winningTargets ts vars = .ok (specWinning ts vars)
    ∧ (specWinning ts vars = ∅ →
        getNextNodeId ts vars = .error .noTransitionError)
    ∧ (specWinning ts vars ≠ ∅ →
        getNextNodeId ts vars = .ok (specWinning ts vars))
    ∧ (1 < (specWinning ts vars).card →
        simpleGetNextNodeId ts vars = .error .multipleTransitionError)
    ∧ (specWinning ts vars ≠ ∅ → ¬ 1 < (specWinning ts vars).card →
        simpleGetNextNodeId ts vars = .ok (specWinning ts vars))
    ∧ (∀ s, simpleGetNextNodeId ts vars = .ok s → s.card ≤ 1)
    ∧ (∀ k, isSimpleTransitional k = true →
        nodeGetNextNodeId k ts vars = some (simpleGetNextNodeId ts vars))
    ∧ nodeGetNextNodeId .parallelSplit ts vars = some (getNextNodeId ts vars) := by
  have hw := winningTargets_ok ts vars hok
  refine ⟨hw, ?_, ?_, ?_, ?_, ?_, ?_, rfl⟩
  · intro he
    simp [getNextNodeId, hw, he]
  · intro hne
    simp [getNextNodeId, hw, hne]
  · intro hcard
    have hne : specWinning ts vars ≠ ∅ := by
      intro he
      rw [he] at hcard
      simp at hcard
    simp [simpleGetNextNodeId, getNextNodeId, hw, hne, hcard]
  · intro hne hcard
    simp [simpleGetNextNodeId, getNextNodeId, hw, hne, hcard]
  · intro s hs
    unfold simpleGetNextNodeId at hs
    cases hg : getNextNodeId ts vars with
    | error e => rw [hg] at hs; exact Except.noConfusion hs
    | ok next =>
        rw [hg] at hs
        dsimp only at hs
        by_cases hc : 1 < next.card
        · rw [if_pos hc] at hs; exact Except.noConfusion hs
        · rw [if_neg hc] at hs
          cases hs
          exact Nat.le_of_not_lt hc
  · intro k hk
    cases k <;> first | rfl | exact absurd hk (by simp [isSimpleTransitional])

/-- Witness for C1 at a concrete input: three transitions with targets
1 (no condition), 2 (condition true) and 3 (condition false) give the
winning set {1, 2}, on which the simple-transitional resolution raises
MultipleTransitionError while the plain resolution returns both
targets. -/
theorem C1_transition_resolution_witness :
    simpleGetNextNodeId
        [⟨1, Option.none⟩, ⟨2, some (fun _ => Except.ok (PyVal.bool true))⟩,
         ⟨3, some (fun _ => Except.ok (PyVal.bool false))⟩] []
      = .error .multipleTransitionError
    ∧ getNextNodeId
        [⟨1, Option.none⟩, ⟨2, some (fun _ => Except.ok (PyVal.bool true))⟩,
         ⟨3, some (fun _ => Except.ok (PyVal.bool false))⟩] []
      = .ok ({1, 2} : Finset Int) := by
  have h := C1_transition_resolution
      [⟨1, Option.none⟩, ⟨2, some (fun _ => Except.ok (PyVal.bool true))⟩,
       ⟨3, some (fun _ => Except.ok (PyVal.bool false))⟩] []
      (by
        intro t ht
        simp only [List.mem_cons, List.not_mem_nil, or_false] at ht
        rcases ht with rfl | rfl | rfl
        · exact ⟨true, rfl⟩
        · exact ⟨true, rfl⟩
        · exact ⟨false, rfl⟩)
  constructor
  · refine (h.2.2.2.1 ?_)
    decide
  · have := h.2.2.1 (by decide)
    rw [this]
    decide

/-- C2, evaluation of the variable-node branch at the failing input: the
source (sequencerunner.py line 342) evaluates a string right-hand side
with the bare `eval(expr)`, whose environment does not contain the
sequence variables, so assigning `y` the expression `"x"` while the
sequence variables hold `x = 2` raises NameError; evaluating the same
assignment the way the claim and the spec state it — with
common.py `evaluate_expr(expr, variables)` against the current
variables — instead assigns `y = 2`. -/
theorem C2_variable_rhs_eval_environment :
    manageSeqVar (fun s => miniEval s []) (initReadOnly [])
        [("y", PyVal.str "x")] [("x", PyVal.int 2)]
      = .error (.nameError "x")
    ∧ specManageSeqVar miniEval (initReadOnly [])
        [("y", PyVal.str "x")] [("x", PyVal.int 2)]
      = .ok [("x", PyVal.int 2), ("y", PyVal.int 2)] := by
  exact ⟨rfl, rfl⟩

/-- C3: the read-only set is `{"results"} ∪ constants`, and a Variable
node whose assignment mapping contains any read-only name makes the
variable-node dispatch raise ReadOnlyError (before any assignment);
moreover a successful dispatch never changes the binding of any
read-only name, whatever the evaluator does. -/
theorem C3_read_only_names_protected
    (evalStr : String → Except PyExc PyVal) (constants : Vars)
    (ass : List (String × PyVal)) (vars : Vars) :
    ((∃ p ∈ ass, p.1 ∈ initReadOnly constants) →
        manageSeqVar evalStr (initReadOnly constants) ass vars
          = .error .readOnlyError)
    ∧ ("results" ∈ initReadOnly constants
        ∧ ∀ c ∈ constants, c.1 ∈ initReadOnly constants)
    ∧ (∀ vars2, manageSeqVar evalStr (initReadOnly constants) ass vars = .ok vars2 →
        ∀ name ∈ initReadOnly constants,
          lookupVar vars2 name = lookupVar vars name) := by
  refine ⟨?_, ⟨?_, ?_⟩, ?_⟩
  · rintro ⟨p, hp, hmem⟩
    have hany : ass.any (fun q => (initReadOnly constants).contains q.1) = true := by
      rw [List.any_eq_true]
      exact ⟨p, hp, List.elem_eq_true_of_mem hmem⟩
    unfold manageSeqVar
    rw [if_pos hany]
  · simp [initReadOnly]
  · intro c hc
    simp only [initReadOnly, List.mem_cons]
    exact Or.inr (List.mem_map_of_mem _ hc)
  · intro vars2 hok name hname
    unfold manageSeqVar at hok
    by_cases hany : ass.any (fun q => (initReadOnly constants).contains q.1) = true
    · rw [if_pos hany] at hok
      exact Except.noConfusion hok
    · rw [if_neg hany] at hok
      refine assignLoop_lookup_not_assigned _ _ _ _ _ hok ?_
      intro p hp heq
      apply hany
      rw [List.any_eq_true]
      refine ⟨p, hp, ?_⟩
      rw [heq]
      exact List.elem_eq_true_of_mem hname

/-- Witness for C3 at a concrete input: a Variable node assigning the
constant name "c" is rejected with ReadOnlyError. -/
theorem C3_read_only_names_protected_witness :
    manageSeqVar (fun s => miniEval s []) (initReadOnly [("c", PyVal.int 1)])
        [("c", PyVal.str "2")] [("c", PyVal.int 1)]
      = .error .readOnlyError :=
  (C3_read_only_names_protected (fun s => miniEval s []) [("c", PyVal.int 1)]
      [("c", PyVal.str "2")] [("c", PyVal.int 1)]).1
    ⟨("c", PyVal.str "2"), by decide, by decide⟩

/-- C4: the parallel-sync dispatch fires its single outgoing transition
exactly when the history, after recording the arrival, equals the
graph-level inbound set `prevIds`; on firing the history is cleared and
the next node is added with the sync node as previous; otherwise only
the history grows.  In particular, right after a completed barrier the
history is empty again, so a new arrival fires only if it re-forms the
whole inbound set. -/
theorem C4_parallel_sync_barrier (prevIds : Finset Int) (nxt nid : Int)
    (history : Option (Finset Int)) (arrival : Int) :
    (syncFires (manageParallelSync prevIds (.ok nxt) nid history arrival) = true ↔
        insert arrival (history.getD ∅) = prevIds)
    ∧ (insert arrival (history.getD ∅) = prevIds →
        manageParallelSync prevIds (.ok nxt) nid history arrival
          = .ok (∅, some ⟨nxt, some nid⟩))
    ∧ (insert arrival (history.getD ∅) ≠ prevIds →
        manageParallelSync prevIds (.ok nxt) nid history arrival
          = .ok (insert arrival (history.getD ∅), Option.none))
    ∧ (syncFires (manageParallelSync prevIds (.ok nxt) nid (some ∅) arrival) = true ↔
        ({arrival} : Finset Int) = prevIds) := by
  have key : ∀ hist : Option (Finset Int),
      (syncFires (manageParallelSync prevIds (.ok nxt) nid hist arrival) = true ↔
          insert arrival (hist.getD ∅) = prevIds)
      ∧ (insert arrival (hist.getD ∅) = prevIds →
          manageParallelSync prevIds (.ok nxt) nid hist arrival
            = .ok (∅, some ⟨nxt, some nid⟩))
      ∧ (insert arrival (hist.getD ∅) ≠ prevIds →
          manageParallelSync prevIds (.ok nxt) nid hist arrival
            = .ok (insert arrival (hist.getD ∅), Option.none)) := by
    intro hist
    by_cases h : prevIds = insert arrival (hist.getD ∅)
    · refine ⟨?_, ?_, ?_⟩
      · simp [manageParallelSync, if_pos h, syncFires, h.symm]
      · intro _; simp [manageParallelSync, if_pos h]
      · intro hne; exact absurd h.symm hne
    · refine ⟨?_, ?_, ?_⟩
      · simp [manageParallelSync, if_neg h, syncFires]
        exact fun hh => h hh.symm
      · intro hh; exact absurd hh.symm h
      · intro _; simp [manageParallelSync, if_neg h]
  refine ⟨(key history).1, (key history).2.1, (key history).2.2, ?_⟩
  simpa using (key (some ∅)).1

/-- Witness for C4 at a concrete input: with inbound set {1, 2} and
history {1}, the arrival of 2 completes the barrier, clears the
history, and adds the next node 9 with previous 5. -/
theorem C4_parallel_sync_barrier_witness :
    manageParallelSync ({1, 2} : Finset Int) (.ok 9) 5 (some {1}) 2
      = .ok (∅, some ⟨9, some 5⟩) :=
  (C4_parallel_sync_barrier {1, 2} 9 5 (some {1}) 2).2.1 (by decide)

/-- C5, evaluation of result handling at the failing behaviour: the
result-handling block of `SequenceRunner.run` (lines 418-432) stores
the record under `variables['results'][nid]` — and any results
dictionary with unique keys keeps exactly one record per node id — but
it changes no other variable entry: in particular no `return_var_name`
binding is ever written, contrary to the claim. -/
theorem C5_result_recording (st : RunnerState) (res : NodeResult) (nextId : Int) :
    (∀ name, name ≠ "results" →
        lookupRVar (handleResult st res nextId).varsDict name
          = lookupRVar st.varsDict name)
    ∧ (∀ d, lookupResultEntry (setResultEntry d res.node_id res) res.node_id
          = some res)
    ∧ (∀ d : List (Int × NodeResult), (d.map Prod.fst).Nodup →
        ((setResultEntry d res.node_id res).map Prod.fst).Nodup) := by
  refine ⟨?_, ?_, ?_⟩
  · intro name h
    exact storeResult_lookup_ne st.varsDict res name h
  · intro d
    exact lookupResultEntry_setResultEntry d res.node_id res
  · intro d hnd
    rw [setResultEntry_keys]
    by_cases hm : res.node_id ∈ d.map Prod.fst
    · simpa [hm] using hnd
    · simp [hm, List.nodup_append, hnd]

/-- Witness for C5 at a concrete input: handling a result for node 1
leaves the binding of "spam" (a would-be return variable) unchanged. -/
theorem C5_result_recording_witness :
    lookupRVar
        (handleResult ⟨[("spam", RVal.py PyVal.none), ("results", RVal.results [])],
            [1], []⟩
          ⟨1, ⟨false, Option.none, []⟩, some (PyVal.str "Hello world!")⟩ 2).varsDict
        "spam"
      = some (RVal.py PyVal.none) :=
  ((C5_result_recording
      ⟨[("spam", RVal.py PyVal.none), ("results", RVal.results [])], [1], []⟩
      ⟨1, ⟨false, Option.none, []⟩, some (PyVal.str "Hello world!")⟩ 2).1
    "spam" (by decide)).trans rfl

/-- C9, evaluation at the failing input: `import_wrappers` performs no
NodeWrapper-descendance check (it is only a TODO comment in the
source), so a class that does not derive from NodeWrapper is imported
successfully. -/
theorem C9_import_wrappers_accepts_non_subclass :
    importWrappers [⟨"MyWrapper", false⟩] ["MyWrapper"]
      = .ok [("MyWrapper", ⟨"MyWrapper", false⟩)]
    ∧ PyClass.isNodeWrapperSubclass ⟨"MyWrapper", false⟩ = false := by
  exact ⟨rfl, rfl⟩

/-- C10: reading `previous_node_id` raises PreviousNodeUndefined
exactly when the stored value is falsy — when it is still None, but
also after the setter stored the valid node id 0, because the getter
tests truthiness (`if self._previous_node_id:`); any nonzero stored id
is returned. -/
theorem C10_previous_node_id_falsy (stored : Option Int) :
    (previousNodeIdGet stored = .error .previousNodeUndefined ↔
        stored = Option.none ∨ stored = some 0)
    ∧ previousNodeIdGet (previousNodeIdSet stored 0)
        = .error .previousNodeUndefined
    ∧ (∀ n : Int, n ≠ 0 →
        previousNodeIdGet (previousNodeIdSet stored n) = .ok n) := by
  refine ⟨?_, ?_, ?_⟩
  · cases stored with
    | none => simp [previousNodeIdGet, pyTruthyId]
    | some n =>
        by_cases h : n = 0
        · subst h; simp [previousNodeIdGet, pyTruthyId]
        · simp [previousNodeIdGet, pyTruthyId, h]
  · rfl
  · intro n h
    have hb : (n != 0) = true := by simpa using h
    simp [previousNodeIdGet, previousNodeIdSet, pyTruthyId, hb]

/-- Witness for C10 at a concrete input: a nonzero previous node id is
returned by the getter. -/
theorem C10_previous_node_id_falsy_witness :
    previousNodeIdGet (previousNodeIdSet Option.none 7) = .ok 7 :=
  (C10_previous_node_id_falsy Option.none).2.2 7 (by decide)

/-- C6: for an invocation started from the state `__init__` produces
(empty `_wrappers_pre_success`, as in the per-invocation worker), the
pre phase calls `pre()` on the wrappers in their declared order (the
sequence of pre calls is a prefix of the declared name list), the post
phase calls `post()` only on wrappers in `_wrappers_pre_success`, and
every name in that list belongs to a declared wrapper whose
construction and `pre()` both succeeded in this same invocation. -/
theorem C6_wrapper_order (desc : List (String × WrapperBehavior)) :
    (preCalls (runWrappersPre [] desc).trace
        = (desc.map Prod.fst).take (preCalls (runWrappersPre [] desc).trace).length)
    ∧ (∀ w ∈ postCalls
          (runWrappersPost (runWrappersPre [] desc).preSuccess
            (runWrappersPre [] desc).objects).2,
        w ∈ (runWrappersPre [] desc).preSuccess)
    ∧ (∀ w ∈ (runWrappersPre [] desc).preSuccess,
        ∃ b, (w, b) ∈ desc ∧ (∃ u, b.initRes = .ok u) ∧ ∃ v, b.preRes = .ok v) := by
  refine ⟨runWrappersPre_preCalls [] desc, runWrappersPost_subset _ _, ?_⟩
  intro w hw
  rcases runWrappersPre_preSuccess_mem [] desc w hw with h | h
  · exact absurd h (List.not_mem_nil w)
  · exact h

/-- Witness for C6 at a concrete input: with one declared wrapper whose
pre succeeds, "a" is in the pre-success list and the theorem produces
its successful behaviour. -/
theorem C6_wrapper_order_witness :
    ∃ b : WrapperBehavior,
      ("a", b) ∈ [("a", (⟨.ok (), .ok PyVal.none, .ok ()⟩ : WrapperBehavior))]
      ∧ (∃ u, b.initRes = .ok u) ∧ ∃ v, b.preRes = .ok v :=
  (C6_wrapper_order [("a", ⟨.ok (), .ok PyVal.none, .ok ()⟩)]).2.2 "a" (by decide)

/-- C7, counterexample to the claim as stated: with two wrappers both
pre-succeeded and the first one failing in `post()`, the failure is
raised as NodeWrapperPostError naming "w1", but the `post()` of the
remaining pre-succeeded wrapper "w2" is NOT attempted — the raise
leaves the loop of `_run_wrappers_post`. -/
theorem C7_post_phase_counterexample :
    "w2" ∈ (runWrappersPre []
        [("w1", ⟨.ok (), .ok PyVal.none, .error "boom"⟩),
         ("w2", ⟨.ok (), .ok PyVal.none, .ok ()⟩)]).preSuccess
    ∧ (runWrappersPost
          (runWrappersPre []
            [("w1", ⟨.ok (), .ok PyVal.none, .error "boom"⟩),
             ("w2", ⟨.ok (), .ok PyVal.none, .ok ()⟩)]).preSuccess
          (runWrappersPre []
            [("w1", ⟨.ok (), .ok PyVal.none, .error "boom"⟩),
             ("w2", ⟨.ok (), .ok PyVal.none, .ok ()⟩)]).objects).1
        = some (.wrapperPostError "w1")
    ∧ "w2" ∉ postCalls (runWrappersPost
          (runWrappersPre []
            [("w1", ⟨.ok (), .ok PyVal.none, .error "boom"⟩),
             ("w2", ⟨.ok (), .ok PyVal.none, .ok ()⟩)]).preSuccess
          (runWrappersPre []
            [("w1", ⟨.ok (), .ok PyVal.none, .error "boom"⟩),
             ("w2", ⟨.ok (), .ok PyVal.none, .ok ()⟩)]).objects).2 := by
  decide

/-- C7 as amended: in the post phase, the first `post()` failure among
the pre-succeeded wrappers is raised as NodeWrapperPostError naming
that wrapper and aborts the phase — the `post()` calls of the later
pre-succeeded wrappers are not attempted; when no eligible `post()`
fails, all of them are called in order.  (`FunctionNode.run` then
captures the raised error, which C8's theorem shows ends up in the
result's wrapper-error slot when no pre error was captured.) -/
theorem C7_post_first_failure_aborts (ps : List String)
    (objs : List (String × WrapperBehavior)) :
    (∀ w, (runWrappersPost ps objs).1 = some (.wrapperPostError w) →
        ∃ front b back,
          objs.filter (fun p => decide (p.1 ∈ ps)) = front ++ (w, b) :: back
          ∧ (∀ q ∈ front, ∃ u, q.2.postRes = .ok u)
          ∧ (∃ msg, b.postRes = .error msg)
          ∧ postCalls (runWrappersPost ps objs).2 = front.map Prod.fst ++ [w])
    ∧ ((runWrappersPost ps objs).1 = Option.none →
        postCalls (runWrappersPost ps objs).2
          = (objs.filter (fun p => decide (p.1 ∈ ps))).map Prod.fst) := by
  induction objs with
  | nil =>
      refine ⟨?_, ?_⟩
      · intro w h
        exact Option.noConfusion h
      · intro _
        rfl
  | cons p rest ih =>
      obtain ⟨w', b⟩ := p
      by_cases hmem : w' ∈ ps
      · cases hpost : b.postRes with
        | error msg =>
            refine ⟨?_, ?_⟩
            · intro w h
              simp only [runWrappersPost, if_pos hmem, hpost] at h
              have hww : w' = w := by
                have := Option.some.inj h
                exact PyExc.wrapperPostError.inj this
              subst hww
              refine ⟨[], b, rest.filter (fun p => decide (p.1 ∈ ps)), ?_, ?_, ?_, ?_⟩
              · simp [List.filter_cons, hmem]
              · intro q hq
                exact absurd hq (List.not_mem_nil q)
              · exact ⟨msg, hpost⟩
              · simp only [runWrappersPost, if_pos hmem, hpost, postCalls,
                  List.filterMap_cons]
                rfl
            · intro h
              simp only [runWrappersPost, if_pos hmem, hpost] at h
              exact Option.noConfusion h
        | ok u =>
            refine ⟨?_, ?_⟩
            · intro w h
              simp only [runWrappersPost, if_pos hmem, hpost] at h
              rcases ih.1 w h with ⟨front, b2, back, hsplit, hfront, hb2, htr⟩
              refine ⟨(w', b) :: front, b2, back, ?_, ?_, hb2, ?_⟩
              · simp only [List.filter_cons, hmem, decide_True, if_true]
                rw [hsplit]
                rfl
              · intro q hq
                rcases List.mem_cons.1 hq with rfl | hq2
                · exact ⟨u, hpost⟩
                · exact hfront q hq2
              · simp only [runWrappersPost, if_pos hmem, hpost]
                rw [postCalls_cons, htr]
                rfl
            · intro h
              simp only [runWrappersPost, if_pos hmem, hpost] at h
              have h2 := ih.2 h
              simp only [runWrappersPost, if_pos hmem, hpost]
              rw [postCalls_cons, h2]
              simp [List.filter_cons, hmem]
      · have heq : runWrappersPost ps ((w', b) :: rest) = runWrappersPost ps rest := by
          simp [runWrappersPost, hmem]
        have hfil : ((w', b) :: rest).filter (fun p => decide (p.1 ∈ ps))
            = rest.filter (fun p => decide (p.1 ∈ ps)) := by
          simp [List.filter_cons, hmem]
        rw [heq, hfil]
        exact ih

/-- Witness for C7's amended theorem at a concrete input: one wrapper
whose post fails is the first failing one, with nothing before it and
its post call being the only one made. -/
theorem C7_post_first_failure_aborts_witness :
    ∃ front b back,
      ([("w1", (⟨.ok (), .ok PyVal.none, .error "boom"⟩ : WrapperBehavior))].filter
          (fun p => decide (p.1 ∈ ["w1"])))
        = front ++ ("w1", b) :: back
      ∧ (∀ q ∈ front, ∃ u, q.2.postRes = .ok u)
      ∧ (∃ msg, b.postRes = .error msg)
      ∧ postCalls (runWrappersPost ["w1"]
            [("w1", ⟨.ok (), .ok PyVal.none, .error "boom"⟩)]).2
          = front.map Prod.fst ++ ["w1"] :=
  (C7_post_first_failure_aborts ["w1"]
      [("w1", ⟨.ok (), .ok PyVal.none, .error "boom"⟩)]).1 "w1" (by decide)

/-- C8: in the composed FunctionNodeResult, the wrapper-error slot
holds the pre/init error when one was captured — the function having
been skipped and any post error discarded — and otherwise holds the
post error; the exception field is None exactly when no pre error, no
post error and no function error occurred. -/
theorem C8_exception_composition (nid : Int)
    (desc : List (String × WrapperBehavior)) (initialSuccess : List String)
    (funcOutcome : Option PyVal × Option PyExc) :
    ((nodeRun nid desc initialSuccess funcOutcome).1.exception = Option.none ↔
        (runWrappersPre initialSuccess desc).error = Option.none
        ∧ (runWrappersPost (runWrappersPre initialSuccess desc).preSuccess
            (runWrappersPre initialSuccess desc).objects).1 = Option.none
        ∧ funcOutcome.2 = Option.none)
    ∧ (∀ e, (runWrappersPre initialSuccess desc).error = some e →
        (nodeRun nid desc initialSuccess funcOutcome).1.exception
          = some ⟨Option.none, some e⟩)
    ∧ (∀ e, (runWrappersPre initialSuccess desc).error = Option.none →
        (runWrappersPost (runWrappersPre initialSuccess desc).preSuccess
            (runWrappersPre initialSuccess desc).objects).1 = some e →
        (nodeRun nid desc initialSuccess funcOutcome).1.exception
          = some ⟨funcOutcome.2, some e⟩)
    ∧ ((runWrappersPre initialSuccess desc).error = Option.none →
        (runWrappersPost (runWrappersPre initialSuccess desc).preSuccess
            (runWrappersPre initialSuccess desc).objects).1 = Option.none →
        funcOutcome.2 ≠ Option.none →
        (nodeRun nid desc initialSuccess funcOutcome).1.exception
          = some ⟨funcOutcome.2, Option.none⟩) := by
  cases hpe : (runWrappersPre initialSuccess desc).error with
  | some e =>
      refine ⟨?_, ?_, ?_, ?_⟩
      · simp [nodeRun, createNodeResult, hpe, Option.orElse]
      · intro e2 he2
        cases he2
        simp [nodeRun, createNodeResult, hpe, Option.orElse]
      · intro e2 hnone
        exact Option.noConfusion hnone
      · intro hnone
        exact Option.noConfusion hnone
  | none =>
      cases hpo : (runWrappersPost (runWrappersPre initialSuccess desc).preSuccess
          (runWrappersPre initialSuccess desc).objects).1 with
      | some e =>
          refine ⟨?_, ?_, ?_, ?_⟩
          · simp [nodeRun, createNodeResult, hpe, hpo, Option.orElse]
          · intro e2 he2
            exact Option.noConfusion he2
          · intro e2 _ he2
            cases he2
            simp [nodeRun, createNodeResult, hpe, hpo, Option.orElse]
          · intro _ hnone
            exact Option.noConfusion hnone
      | none =>
          cases hf : funcOutcome.2 with
          | some e =>
              refine ⟨?_, ?_, ?_, ?_⟩
              · simp [nodeRun, createNodeResult, hpe, hpo, hf, Option.orElse]
              · intro e2 he2
                exact Option.noConfusion he2
              · intro e2 _ he2
                exact Option.noConfusion he2
              · intro _ _ _
                simp [nodeRun, createNodeResult, hpe, hpo, hf, Option.orElse]
          | none =>
              refine ⟨?_, ?_, ?_, ?_⟩
              · simp [nodeRun, createNodeResult, hpe, hpo, hf, Option.orElse]
              · intro e2 he2
                exact Option.noConfusion he2
              · intro e2 _ he2
                exact Option.noConfusion he2
              · intro _ _ hne
                exact absurd rfl hne

/-- Witness for C8 at a concrete input: with no wrappers and a function
exception, the result's exception carries the function error and an
empty wrapper slot. -/
theorem C8_exception_composition_witness :
    (nodeRun 1 [] [] (Option.none, some (.nameError "e"))).1.exception
      = some ⟨some (.nameError "e"), Option.none⟩ :=
  (C8_exception_composition 1 [] [] (Option.none, some (.nameError "e"))).2.2.2
    rfl rfl (by decide)

end Yapyseq
